import Mathlib

/-!
Shallow embedding of `cupyx/scipy/ndimage/_util.py` (boundary-index
resolution subsystem and its parameter-validation helpers).

Conventions used throughout:
* The boundary-condition generator `_generate_boundary_condition_ops`
  emits C/CUDA source text; here each mode's emitted arithmetic is
  embedded as a pure function `Int → Int → Int` over unbounded integers.
  C's `%` on signed integers is truncated remainder (`Int.tmod`) and
  C's `/` is truncated division (`Int.tdiv`).
* Python's `//` and `%` are floor operations; for a positive divisor
  they coincide with Lean's `Int.ediv` (`/`) and `Int.emod` (`%`).
* Python functions that `raise` are embedded with `Except String`.
-/

/-- Branch for `reflect` / `grid-mirror` of `_generate_boundary_condition_ops`
(`_util.py` lines 130-137).  Emitted C code:
`if (ix < 0) ix = -1 - ix; ix %= xsize * 2; ix = min(ix, 2*xsize - 1 - ix);` -/
def resolve_reflect (ix xsize : Int) : Int :=
  let i1 := if ix < 0 then -1 - ix else ix
  let i2 := Int.tmod i1 (xsize * 2)
  min i2 (2 * xsize - 1 - i2)

/-- Branch for `mirror` (`_util.py` lines 138-148).  Emitted C code:
`if (xsize == 1) { ix = 0; } else { if (ix < 0) ix = -ix;
 ix = 1 + (ix - 1) % ((xsize - 1) * 2); ix = min(ix, 2*xsize - 2 - ix); }` -/
def resolve_mirror (ix xsize : Int) : Int :=
  if xsize = 1 then 0
  else
    let i1 := if ix < 0 then -ix else ix
    let i2 := 1 + Int.tmod (i1 - 1) ((xsize - 1) * 2)
    min i2 (2 * xsize - 2 - i2)

/-- Branch for `nearest` (`_util.py` lines 149-155).  Emitted C code:
`ix = min(max((T)ix, (T)0), (T)(xsize - 1));` — a clamp; the cast `T`
only selects the machine comparison width, which is immaterial over
unbounded `Int`. -/
def resolve_nearest (ix xsize : Int) : Int :=
  min (max ix 0) (xsize - 1)

/-- Branch for `grid-wrap` (`_util.py` lines 156-161).  Emitted C code:
`ix %= xsize; while (ix < 0) { ix += xsize; }`.  For `0 < xsize` the
truncated remainder satisfies `-xsize < ix % xsize < xsize`, so the
`while` body executes at most once; it is embedded as one conditional
addition. -/
def resolve_grid_wrap (ix xsize : Int) : Int :=
  let i1 := Int.tmod ix xsize
  if i1 < 0 then i1 + xsize else i1

/-- Branch for `wrap` (`_util.py` lines 162-168).  Emitted C code:
`if (ix < 0) { ix += (sz - 1) * ((int_t)(-ix / (sz - 1)) + 1); }
 else if (ix > (sz - 1)) { ix -= (sz - 1) * (int_t)(ix / (sz - 1)); };`
For `xsize = 1` the C code divides by zero (undefined behavior); the
embedding inherits Lean's `Int.tdiv _ 0 = 0` convention there, and the
quotient is in any case multiplied by `xsize - 1 = 0`, so the result
below is `ix` itself regardless of which value the division takes. -/
def resolve_wrap (ix xsize : Int) : Int :=
  if ix < 0 then ix + (xsize - 1) * (Int.tdiv (-ix) (xsize - 1) + 1)
  else if ix > xsize - 1 then ix - (xsize - 1) * Int.tdiv ix (xsize - 1)
  else ix

/-- Branch for `constant` / `grid-constant` (`_util.py` lines 169-173).
Emitted C code: `if ((ix < 0) || ix >= xsize) { ix = -1; }` -/
def resolve_constant (ix xsize : Int) : Int :=
  if ix < 0 ∨ ix ≥ xsize then -1 else ix

/-- The `if/elif` dispatch of `_generate_boundary_condition_ops`
(`_util.py` lines 126-174) on the mode tag.  When no branch matches,
the Python local `ops` is never assigned and the trailing `return ops`
raises `UnboundLocalError`; this fall-through is modelled as `none`. -/
def modeBranch (mode : String) : Option (Int → Int → Int) :=
  if mode = "reflect" ∨ mode = "grid-mirror" then some resolve_reflect
  else if mode = "mirror" then some resolve_mirror
  else if mode = "nearest" then some resolve_nearest
  else if mode = "grid-wrap" then some resolve_grid_wrap
  else if mode = "wrap" then some resolve_wrap
  else if mode = "constant" ∨ mode = "grid-constant" then some resolve_constant
  else none

/-- Embedding of `_check_mode` (`_util.py` lines 89-94): returns the mode unchanged
when it is in the 8-element validated tuple, otherwise raises
`RuntimeError`. -/
def _check_mode (mode : String) : Except String String :=
  if mode = "reflect" ∨ mode = "constant" ∨ mode = "nearest" ∨ mode = "mirror"
      ∨ mode = "wrap" ∨ mode = "grid-mirror" ∨ mode = "grid-wrap"
      ∨ mode = "grid-reflect"
  then Except.ok mode
  else Except.error "boundary mode not supported"

/-- Embedding of `_check_origin` (`_util.py` lines 82-86): raises `ValueError` when
`width // 2 + origin < 0` or `width // 2 + origin >= width`, else
returns the origin.  Python `//` is floor division (`Int.ediv`, written
`/`). -/
def _check_origin (origin width : Int) : Except String Int :=
  if width / 2 + origin < 0 ∨ width / 2 + origin ≥ width then
    Except.error "invalid origin"
  else Except.ok origin

/-- The reachable byte span computed by `_get_inttype`
(`_util.py` lines 121-122):
`sum((x-1)*abs(stride) for x, stride in zip(input.shape, input.strides))
 + input.dtype.itemsize`. -/
def nbytesSpan (shape strides : List Int) (itemsize : Int) : Int :=
  (((shape.zip strides).map fun p => (p.1 - 1) * |p.2|).sum) + itemsize

/-- Embedding of `_get_inttype` (`_util.py` lines 116-123): `'int' if nbytes < (1 << 31)
else 'ptrdiff_t'`, with `1 << 31 = 2^31`.  The array argument is embedded
by its shape, strides and element size. -/
def _get_inttype (shape strides : List Int) (itemsize : Int) : String :=
  if nbytesSpan shape strides itemsize < 2 ^ 31 then "int" else "ptrdiff_t"

/-- The final uniqueness check of `_check_axes` (`_util.py` lines 111-112):
`if len(tuple(set(axes))) != len(axes): raise ValueError("axes must be
unique")`, else the axes tuple is returned. -/
def uniqueCheck (axs : List Int) : Except String (List Int) :=
  if axs.Nodup then Except.ok axs else Except.error "axes must be unique"

/-- The three accepted shapes of the `axes` argument of `_check_axes`:
`None`, a scalar integer, or an iterable of integers.  (Any other
argument raises `ValueError`; that branch carries no data and is not
needed by the claims.) -/
inductive AxesArg where
  | null
  | scalar (a : Int)
  | iterable (l : List Int)

/-- Embedding of `_check_axes` (`_util.py` lines 97-113).
* `None` → `tuple(range(ndim))`;
* scalar → `(operator.index(axes),)` with no range check and no
  normalization, then the uniqueness check;
* iterable → each element `ax` is checked against
  `ax < -ndim or ax > ndim - 1` (first offender raises `AxisError`),
  then negatives are normalized by Python's floor modulo
  (`ax % ndim`, i.e. `Int.emod`), then the uniqueness check.
  (The inner reassignment `axes = tuple(operator.index(ax) ...)` is the
  identity on a sequence of integers.) -/
def _check_axes (axes : AxesArg) (ndim : Int) : Except String (List Int) :=
  match axes with
  | .null => uniqueCheck ((List.range ndim.toNat).map Int.ofNat)
  | .scalar a => uniqueCheck [a]
  | .iterable l =>
    if l.any (fun ax => decide (ax < -ndim ∨ ax > ndim - 1)) then
      Except.error "specified axis is out of range"
    else
      uniqueCheck (l.map fun ax => if ax < 0 then ax % ndim else ax)

/-- One axis step of the code generated by `_generate_indices_ops`
(`_util.py` lines 177-183), processed from the last axis to axis 1:
`ind_j = _i % ysize_j - offset_j; _i /= ysize_j;`, and for the final
(first) axis `ind_0 = _i - offset_0` with no modulo.  The list holds
`(ysize_j, offset_j)` pairs with the LAST axis first; C `%` and `/` are
`Int.tmod` and `Int.tdiv`. -/
def decompAux : Int → List (Int × Int) → List Int
  | _, [] => []
  | i, [p] => [i - p.2]
  | i, p :: rest => (Int.tmod i p.1 - p.2) :: decompAux (Int.tdiv i p.1) rest

/-- The full decomposition of a flattened index `i` into per-axis
coordinates `[ind_0, ..., ind_(ndim-1)]`, for per-axis window extents
`ysize` and offsets `offset` given in axis order. -/
def decompose (i : Int) (ysize offset : List Int) : List Int :=
  (decompAux i ((ysize.zip offset).reverse)).reverse

/-- Specification-side restatement of the claim's `mirror` rule, written
with mathematical (floor) modulo `%` and period `2*(xsize-1)` exactly as
the spec words it: degenerate `xsize = 1` resolves to 0; otherwise
negate a negative `ix`, fold by `ix = 1 + (ix-1) mod (2*(xsize-1))`,
then `ix = min(ix, 2*xsize - 2 - ix)`.  Compared against
`resolve_mirror` (which embeds the C truncated `%`). -/
def mirror_spec (ix xsize : Int) : Int :=
  if xsize = 1 then 0
  else
    let j := if ix < 0 then -ix else ix
    let k := 1 + (j - 1) % (2 * (xsize - 1))
    min k (2 * xsize - 2 - k)

/-- Specification-side restatement of the claim's `wrap` rule, written
with floor division as the spec words it: negatives corrected by adding
`(xsize-1) * (floor(-ix / (xsize-1)) + 1)`, values above `xsize-1`
corrected by subtracting `(xsize-1) * floor(ix / (xsize-1))`, in-range
values unchanged.  Compared against `resolve_wrap` (C truncated `/`). -/
def wrap_spec (ix xsize : Int) : Int :=
  if ix < 0 then ix + (xsize - 1) * ((-ix) / (xsize - 1) + 1)
  else if ix > xsize - 1 then ix - (xsize - 1) * (ix / (xsize - 1))
  else ix

/-- Specification-side restatement of the claim's mixed-radix
decomposition step, written with mathematical floor `%` and `/` as the
spec words it ("`ind_j = (i mod ysize_j) - offset_j`, then
`i = i div ysize_j`").  Same list convention as `decompAux`. -/
def decompAuxSpec : Int → List (Int × Int) → List Int
  | _, [] => []
  | i, [p] => [i - p.2]
  | i, p :: rest => (i % p.1 - p.2) :: decompAuxSpec (i / p.1) rest

/-- Specification-side counterpart of `decompose`, built on
`decompAuxSpec`. -/
def decomposeSpec (i : Int) (ysize offset : List Int) : List Int :=
  (decompAuxSpec i ((ysize.zip offset).reverse)).reverse

/-! Helper lemmas about the truncated operations and the per-mode
resolution functions. -/

/-- Truncated remainder is odd in its dividend. -/
theorem tmod_neg_left (a b : Int) : Int.tmod (-a) b = -Int.tmod a b := by
  rw [Int.tmod_def, Int.tmod_def, Int.neg_tdiv]; ring

/-- Closed form of the `reflect` resolution for a positive axis size:
fold the (possibly reflected) coordinate into `[0, 2*xsize)` by the
mathematical modulo and take the smaller of it and its mirror image. -/
theorem reflect_closed (ix x : Int) (hx : 0 < x) :
    resolve_reflect ix x = min (ix % (2 * x)) (2 * x - 1 - ix % (2 * x)) := by
  have h2x : (0:Int) < 2 * x := by omega
  have he0 : 0 ≤ ix % (2 * x) := Int.emod_nonneg ix (by omega)
  have he1 : ix % (2 * x) < 2 * x := Int.emod_lt_of_pos ix h2x
  have hdec : 2 * x * (ix / (2 * x)) + ix % (2 * x) = ix := Int.ediv_add_emod ix (2 * x)
  simp only [resolve_reflect]
  by_cases h : ix < 0
  · rw [if_pos h, show x * 2 = 2 * x by ring, Int.tmod_eq_emod (by omega) (by omega)]
    have h1 : -1 - ix = (2 * x - 1 - ix % (2 * x)) + (2 * x) * (-(ix / (2 * x)) - 1) := by
      conv_lhs => rw [← hdec]
      ring
    have key : (-1 - ix) % (2 * x) = 2 * x - 1 - ix % (2 * x) := by
      rw [h1, Int.add_mul_emod_self_left, Int.emod_eq_of_lt (by omega) (by omega)]
    rw [key]
    omega
  · rw [if_neg h, show x * 2 = 2 * x by ring, Int.tmod_eq_emod (by omega) (by omega)]

/-- The `reflect` resolution lands in `[0, xsize)`. -/
theorem reflect_range (ix x : Int) (hx : 0 < x) :
    0 ≤ resolve_reflect ix x ∧ resolve_reflect ix x < x := by
  rw [reflect_closed ix x hx]
  have he0 : 0 ≤ ix % (2 * x) := Int.emod_nonneg ix (by omega)
  have he1 : ix % (2 * x) < 2 * x := Int.emod_lt_of_pos ix (by omega)
  omega

/-- The `nearest` resolution lands in `[0, xsize)`. -/
theorem nearest_range (ix x : Int) (hx : 0 < x) :
    0 ≤ resolve_nearest ix x ∧ resolve_nearest ix x < x := by
  simp only [resolve_nearest]
  omega

/-- For a positive axis size the `grid-wrap` resolution is exactly the
mathematical modulo. -/
theorem grid_wrap_eq_emod (ix x : Int) (hx : 0 < x) :
    resolve_grid_wrap ix x = ix % x := by
  simp only [resolve_grid_wrap]
  have hdec : Int.tmod ix x + x * Int.tdiv ix x = ix := Int.tmod_add_tdiv ix x
  have hub : Int.tmod ix x < x := Int.tmod_lt_of_pos ix hx
  have hlb : -x < Int.tmod ix x := by
    rcases Int.le_total 0 ix with h | h
    · have := Int.tmod_nonneg (a := ix) x h; omega
    · have h1 : Int.tmod ix x = -Int.tmod (-ix) x := by
        rw [← tmod_neg_left]; norm_num
      have h2 : Int.tmod (-ix) x < x := Int.tmod_lt_of_pos (-ix) hx
      omega
  have hmod : ix % x = Int.tmod ix x % x := by
    conv_lhs => rw [← hdec]
    rw [Int.add_mul_emod_self_left]
  by_cases h : Int.tmod ix x < 0
  · rw [if_pos h, hmod,
      show Int.tmod ix x % x = (Int.tmod ix x + x) % x from (Int.add_emod_self).symm,
      Int.emod_eq_of_lt (by omega) (by omega)]
  · rw [if_neg h, hmod, Int.emod_eq_of_lt (by omega) hub]

/-- The `grid-wrap` resolution lands in `[0, xsize)`. -/
theorem grid_wrap_range (ix x : Int) (hx : 0 < x) :
    0 ≤ resolve_grid_wrap ix x ∧ resolve_grid_wrap ix x < x := by
  rw [grid_wrap_eq_emod ix x hx]
  exact ⟨Int.emod_nonneg ix (by omega), Int.emod_lt_of_pos ix hx⟩

/-- The embedded C `mirror` arithmetic agrees with the spec's
floor-modulo description for every positive axis size.  The only point
where the two moduli differ is a raw coordinate of exactly 0 (operand
`-1`), and there both sides still resolve to 0. -/
theorem mirror_eq_spec (ix x : Int) (hx : 0 < x) :
    resolve_mirror ix x = mirror_spec ix x := by
  simp only [resolve_mirror, mirror_spec]
  by_cases h1 : x = 1
  · rw [if_pos h1, if_pos h1]
  · rw [if_neg h1, if_neg h1]
    have hx2 : 2 ≤ x := by omega
    set j := if ix < 0 then -ix else ix with hj
    have hj0 : 0 ≤ j := by rw [hj]; split <;> omega
    by_cases hj1 : j = 0
    · rw [hj1]
      have ht : Int.tmod ((0:Int) - 1) ((x - 1) * 2) = -1 := by
        rw [show ((0:Int) - 1) = -1 by norm_num, show (-1 : Int) = -(1:Int) by norm_num,
          tmod_neg_left, Int.tmod_eq_of_lt (by omega) (by omega)]
      have he : ((0:Int) - 1) % (2 * (x - 1)) = 2 * (x - 1) - 1 := by
        rw [show ((0:Int) - 1) = -1 by norm_num,
          show (-1 : Int) % (2 * (x - 1)) = (-1 + 2 * (x - 1)) % (2 * (x - 1)) from
            (Int.add_emod_self).symm,
          Int.emod_eq_of_lt (by omega) (by omega)]
        omega
      rw [ht, he]
      omega
    · have hj2 : 1 ≤ j := by omega
      rw [show (x - 1) * 2 = 2 * (x - 1) by ring,
        Int.tmod_eq_emod (by omega) (by omega)]

/-- The `mirror` resolution lands in `[0, xsize)`. -/
theorem mirror_range (ix x : Int) (hx : 0 < x) :
    0 ≤ resolve_mirror ix x ∧ resolve_mirror ix x < x := by
  rw [mirror_eq_spec ix x hx]
  simp only [mirror_spec]
  by_cases h1 : x = 1
  · rw [if_pos h1]; omega
  · rw [if_neg h1]
    have hx2 : 2 ≤ x := by omega
    set j := if ix < 0 then -ix else ix with hj
    have he0 : 0 ≤ (j - 1) % (2 * (x - 1)) := Int.emod_nonneg _ (by omega)
    have he1 : (j - 1) % (2 * (x - 1)) < 2 * (x - 1) := Int.emod_lt_of_pos _ (by omega)
    omega

/-- The embedded C `wrap` arithmetic agrees with the spec's
floor-division description whenever `xsize > 1` (both divisions see a
non-negative dividend and a positive divisor, where truncation and
floor coincide). -/
theorem wrap_eq_spec (ix x : Int) (hx : 1 < x) :
    resolve_wrap ix x = wrap_spec ix x := by
  simp only [resolve_wrap, wrap_spec]
  by_cases h : ix < 0
  · rw [if_pos h, if_pos h, Int.tdiv_eq_ediv (by omega) (by omega)]
  · rw [if_neg h, if_neg h]
    by_cases h2 : ix > x - 1
    · rw [if_pos h2, if_pos h2, Int.tdiv_eq_ediv (by omega) (by omega)]
    · rw [if_neg h2, if_neg h2]

/-- For `xsize > 1` the `wrap` resolution lands in `[0, xsize)`. -/
theorem wrap_range (ix x : Int) (hx : 1 < x) :
    0 ≤ resolve_wrap ix x ∧ resolve_wrap ix x < x := by
  rw [wrap_eq_spec ix x hx]
  simp only [wrap_spec]
  have hx1 : (0:Int) < x - 1 := by omega
  by_cases h : ix < 0
  · rw [if_pos h]
    have hdec : (x - 1) * ((-ix) / (x - 1)) + (-ix) % (x - 1) = -ix :=
      Int.ediv_add_emod _ _
    have h0 : 0 ≤ (-ix) % (x - 1) := Int.emod_nonneg _ (by omega)
    have h1 : (-ix) % (x - 1) < x - 1 := Int.emod_lt_of_pos _ hx1
    have hkey : ix + (x - 1) * ((-ix) / (x - 1) + 1) = x - 1 - (-ix) % (x - 1) := by
      have h2 : (x - 1) * ((-ix) / (x - 1) + 1)
          = (x - 1) * ((-ix) / (x - 1)) + (x - 1) := by ring
      rw [h2]; linarith [hdec]
    rw [hkey]
    constructor <;> linarith
  · rw [if_neg h]
    by_cases h2 : ix > x - 1
    · rw [if_pos h2]
      have hdec : (x - 1) * (ix / (x - 1)) + ix % (x - 1) = ix := Int.ediv_add_emod _ _
      have h0 : 0 ≤ ix % (x - 1) := Int.emod_nonneg _ (by omega)
      have h1 : ix % (x - 1) < x - 1 := Int.emod_lt_of_pos _ hx1
      have hkey : ix - (x - 1) * (ix / (x - 1)) = ix % (x - 1) := by linarith [hdec]
      rw [hkey]
      constructor <;> linarith
    · rw [if_neg h2]
      constructor <;> omega

/-- On non-negative flattened indices and positive extents, the embedded
C decomposition (truncated `%` and `/`) agrees with the spec's
floor-arithmetic description, axis by axis. -/
theorem decompAux_eq_spec :
    ∀ (L : List (Int × Int)) (i : Int), 0 ≤ i → (∀ p ∈ L, 0 < p.1) →
      decompAux i L = decompAuxSpec i L := by
  intro L
  induction L with
  | nil => intro i _ _; rfl
  | cons p rest ih =>
    intro i hi hpos
    cases rest with
    | nil => rfl
    | cons q rest2 =>
      have hp : 0 < p.1 := hpos p (List.mem_cons_self _ _)
      simp only [decompAux, decompAuxSpec]
      rw [Int.tmod_eq_emod hi (by omega), Int.tdiv_eq_ediv hi (by omega)]
      congr 1
      exact ih (i / p.1) (Int.ediv_nonneg hi (by omega))
        (fun r hr => hpos r (List.mem_cons_of_mem _ hr))

/-- Whole-window version of `decompAux_eq_spec`. -/
theorem decompose_eq_spec (i : Int) (ysize offset : List Int) (hi : 0 ≤ i)
    (hpos : ∀ y ∈ ysize, 0 < y) :
    decompose i ysize offset = decomposeSpec i ysize offset := by
  unfold decompose decomposeSpec
  rw [decompAux_eq_spec _ i hi]
  intro p hp
  rw [List.mem_reverse] at hp
  obtain ⟨a, b⟩ := p
  exact hpos a (List.of_mem_zip hp).1
/-! Claim theorems. -/

/-- C1 (amended).  For every mode tag that has a branch in the resolver
and every axis size `xsize > 0` — except that the `wrap` branch
additionally requires `xsize > 1`, since at `xsize = 1` its emitted C
code divides by zero and leaves out-of-range coordinates unchanged —
the resolved coordinate is either the sentinel `-1` or lies in
`[0, xsize)`; and under every branch other than
`constant`/`grid-constant` it lies in `[0, xsize)` (so the sentinel is
reachable only under those two modes). -/
theorem C1_resolver_range (mode : String) (f : Int → Int → Int)
    (hf : modeBranch mode = some f) (ix x : Int) (hx : 0 < x)
    (hwrap : mode = "wrap" → 1 < x) :
    (f ix x = -1 ∨ (0 ≤ f ix x ∧ f ix x < x)) ∧
    ((mode = "constant" ∨ mode = "grid-constant") ∨ (0 ≤ f ix x ∧ f ix x < x)) := by
  unfold modeBranch at hf
  split_ifs at hf with h1 h2 h3 h4 h5 h6
  · injection hf with hf'
    subst hf'
    exact ⟨Or.inr (reflect_range ix x hx), Or.inr (reflect_range ix x hx)⟩
  · injection hf with hf'
    subst hf'
    exact ⟨Or.inr (mirror_range ix x hx), Or.inr (mirror_range ix x hx)⟩
  · injection hf with hf'
    subst hf'
    exact ⟨Or.inr (nearest_range ix x hx), Or.inr (nearest_range ix x hx)⟩
  · injection hf with hf'
    subst hf'
    exact ⟨Or.inr (grid_wrap_range ix x hx), Or.inr (grid_wrap_range ix x hx)⟩
  · injection hf with hf'
    subst hf'
    have hx2 : 1 < x := hwrap h5
    exact ⟨Or.inr (wrap_range ix x hx2), Or.inr (wrap_range ix x hx2)⟩
  · injection hf with hf'
    subst hf'
    refine ⟨?_, Or.inl h6⟩
    simp only [resolve_constant]
    split_ifs with hc
    · exact Or.inl rfl
    · exact Or.inr ⟨by omega, by omega⟩

/-- Witness for C1: the `reflect` branch at `ix = -7`, `xsize = 5`. -/
theorem C1_resolver_range_witness :
    (0:Int) < 5 ∧
    ((resolve_reflect (-7) 5 = -1 ∨ (0 ≤ resolve_reflect (-7) 5 ∧ resolve_reflect (-7) 5 < 5)) ∧
     (("reflect" = "constant" ∨ "reflect" = "grid-constant") ∨
      (0 ≤ resolve_reflect (-7) 5 ∧ resolve_reflect (-7) 5 < 5))) :=
  ⟨by norm_num,
   C1_resolver_range "reflect" resolve_reflect rfl (-7) 5 (by norm_num) (fun _ => by norm_num)⟩

/-- C1 counterexample to the claim as stated: under the `wrap` branch
with `xsize = 1 > 0` and raw coordinate `ix = -2`, the resolved value is
`-2`, which is neither the sentinel `-1` nor in `[0, 1)`.  (The C code
divides by zero there; whatever finite quotient that division yields is
multiplied by `xsize - 1 = 0`, so the coordinate stays `-2`.) -/
theorem C1_counterexample :
    modeBranch "wrap" = some resolve_wrap ∧ (0:Int) < 1 ∧ resolve_wrap (-2) 1 = -2 ∧
    ¬(resolve_wrap (-2) 1 = -1 ∨ (0 ≤ resolve_wrap (-2) 1 ∧ resolve_wrap (-2) 1 < 1)) :=
  ⟨rfl, by norm_num, by decide, by decide⟩

/-- C2: the code violates the claim.  `_check_mode` accepts the tag
`grid-reflect`, but the resolver has no branch for it (its Python local
`ops` stays unassigned, so `return ops` raises `UnboundLocalError`);
symmetrically the resolver handles `grid-constant`, which `_check_mode`
rejects. -/
theorem C2_mode_gap :
    _check_mode "grid-reflect" = Except.ok "grid-reflect" ∧
    modeBranch "grid-reflect" = none ∧
    modeBranch "grid-constant" = some resolve_constant ∧
    _check_mode "grid-constant" = Except.error "boundary mode not supported" :=
  ⟨rfl, rfl, rfl, rfl⟩

/-- C3: under `reflect` (the same branch serves `grid-mirror`), for
every `xsize > 0`: `resolve (-1) xsize = 0`,
`resolve xsize xsize = xsize - 1`, and the resolution is periodic with
period `2 * xsize`. -/
theorem C3_reflect_properties :
    modeBranch "reflect" = some resolve_reflect ∧
    modeBranch "grid-mirror" = some resolve_reflect ∧
    ∀ x : Int, 0 < x →
      resolve_reflect (-1) x = 0 ∧ resolve_reflect x x = x - 1 ∧
      ∀ ix : Int, resolve_reflect ix x = resolve_reflect (ix + 2 * x) x := by
  refine ⟨rfl, rfl, fun x hx => ⟨?_, ?_, fun ix => ?_⟩⟩
  · rw [reflect_closed _ _ hx]
    have hm : (-1 : Int) % (2 * x) = 2 * x - 1 := by
      rw [show (-1 : Int) % (2 * x) = (-1 + 2 * x) % (2 * x) from (Int.add_emod_self).symm,
        Int.emod_eq_of_lt (by omega) (by omega)]
      omega
    rw [hm]
    omega
  · rw [reflect_closed _ _ hx, Int.emod_eq_of_lt (by omega) (by omega)]
    omega
  · rw [reflect_closed _ _ hx, reflect_closed _ _ hx,
      show ix + 2 * x = ix + 2 * x * 1 by ring, Int.add_mul_emod_self_left]

/-- Witness for C3 at `xsize = 5`, periodicity at `ix = 3`. -/
theorem C3_reflect_properties_witness :
    (0:Int) < 5 ∧ resolve_reflect (-1) 5 = 0 ∧
    resolve_reflect 3 5 = resolve_reflect (3 + 2 * 5) 5 :=
  ⟨by norm_num, (C3_reflect_properties.2.2 5 (by norm_num)).1,
   (C3_reflect_properties.2.2 5 (by norm_num)).2.2 3⟩

/-- C4: under `mirror`, an axis of size 1 always resolves to 0; for
every positive axis size the embedded C arithmetic agrees with the
claim's negate / fold by `1 + (ix-1) mod (2*(xsize-1))` /
`min(ix, 2*xsize - 2 - ix)` description (`mirror_spec`); and
`resolve (-1) 5 = 1`, `resolve 5 5 = 3`. -/
theorem C4_mirror_properties :
    (∀ ix : Int, resolve_mirror ix 1 = 0) ∧
    (∀ ix x : Int, 0 < x → resolve_mirror ix x = mirror_spec ix x) ∧
    resolve_mirror (-1) 5 = 1 ∧ resolve_mirror 5 5 = 3 :=
  ⟨fun _ => rfl, fun ix x hx => mirror_eq_spec ix x hx, by decide, by decide⟩

/-- Witness for C4 at `ix = -7`, `xsize = 5`. -/
theorem C4_mirror_properties_witness :
    (0:Int) < 5 ∧ resolve_mirror (-7) 5 = mirror_spec (-7) 5 :=
  ⟨by norm_num, C4_mirror_properties.2.1 (-7) 5 (by norm_num)⟩

/-- C5: under `wrap` with `xsize > 1`, the embedded C arithmetic agrees
with the claim's floor-division correction rules (`wrap_spec`); a
coordinate already in `[0, xsize - 1]` is left unchanged; and
`resolve (-1) 5 = 3`, `resolve 5 5 = 1`. -/
theorem C5_wrap_properties :
    (∀ ix x : Int, 1 < x → resolve_wrap ix x = wrap_spec ix x) ∧
    (∀ ix x : Int, 0 ≤ ix → ix ≤ x - 1 → resolve_wrap ix x = ix) ∧
    resolve_wrap (-1) 5 = 3 ∧ resolve_wrap 5 5 = 1 := by
  refine ⟨fun ix x hx => wrap_eq_spec ix x hx, fun ix x h0 h1 => ?_, by decide, by decide⟩
  simp only [resolve_wrap]
  rw [if_neg (by omega), if_neg (by omega)]

/-- Witness for C5 at `ix = -7`, `xsize = 5` and the unchanged case
`ix = 2`. -/
theorem C5_wrap_properties_witness :
    (1:Int) < 5 ∧ resolve_wrap (-7) 5 = wrap_spec (-7) 5 ∧ resolve_wrap 2 5 = 2 :=
  ⟨by norm_num, C5_wrap_properties.1 (-7) 5 (by norm_num),
   C5_wrap_properties.2.1 2 5 (by norm_num) (by norm_num)⟩

/-- C6: under `grid-wrap`, the resolution is periodic with period
`xsize` for every `xsize > 0`; an axis of size 1 always resolves to 0;
and `resolve (-1) 5 = 4`, `resolve 5 5 = 0`. -/
theorem C6_grid_wrap_properties :
    (∀ x : Int, 0 < x → ∀ ix : Int,
      resolve_grid_wrap ix x = resolve_grid_wrap (ix + x) x) ∧
    (∀ ix : Int, resolve_grid_wrap ix 1 = 0) ∧
    resolve_grid_wrap (-1) 5 = 4 ∧ resolve_grid_wrap 5 5 = 0 := by
  refine ⟨fun x hx ix => ?_, fun ix => ?_, by decide, by decide⟩
  · rw [grid_wrap_eq_emod _ _ hx, grid_wrap_eq_emod _ _ hx, Int.add_emod_self]
  · rw [grid_wrap_eq_emod _ _ (by norm_num), Int.emod_one]

/-- Witness for C6: periodicity at `ix = -1`, `xsize = 5`. -/
theorem C6_grid_wrap_properties_witness :
    (0:Int) < 5 ∧ resolve_grid_wrap (-1) 5 = resolve_grid_wrap (-1 + 5) 5 :=
  ⟨by norm_num, C6_grid_wrap_properties.1 5 (by norm_num) (-1)⟩

/-- C7: the index-width selector computes the reachable byte span
`sum((extent - 1) * |stride|) + itemsize`, always returns one of the
two width tags, and returns the wide tag exactly when the span exceeds
`2^31 - 1`; a contiguous `(2^20, 2^12)` array of 8-byte elements
(strides `(2^15, 8)`) selects wide, a `(10, 10)` array of 4-byte
elements (strides `(40, 4)`) selects narrow. -/
theorem C7_inttype_properties :
    (∀ (shape strides : List Int) (itemsize : Int),
      (_get_inttype shape strides itemsize = "int" ∨
        _get_inttype shape strides itemsize = "ptrdiff_t") ∧
      (_get_inttype shape strides itemsize = "ptrdiff_t" ↔
        nbytesSpan shape strides itemsize > 2 ^ 31 - 1)) ∧
    _get_inttype [2 ^ 20, 2 ^ 12] [2 ^ 15, 8] 8 = "ptrdiff_t" ∧
    _get_inttype [10, 10] [40, 4] 4 = "int" := by
  refine ⟨fun shape strides itemsize => ?_, by decide, by decide⟩
  unfold _get_inttype
  split_ifs with h
  · refine ⟨Or.inl rfl, ⟨fun he => absurd he (by decide), fun hgt => absurd hgt (by omega)⟩⟩
  · exact ⟨Or.inr rfl, ⟨fun _ => by omega, fun _ => rfl⟩⟩

/-- Witness for C7: the selector dichotomy evaluated on the `(10, 10)`
4-byte array. -/
theorem C7_inttype_properties_witness :
    (_get_inttype [10, 10] [40, 4] 4 = "int" ∨
      _get_inttype [10, 10] [40, 4] 4 = "ptrdiff_t") ∧
    (_get_inttype [10, 10] [40, 4] 4 = "ptrdiff_t" ↔
      nbytesSpan [10, 10] [40, 4] 4 > 2 ^ 31 - 1) :=
  C7_inttype_properties.1 [10, 10] [40, 4] 4

/-- C8: on a non-negative flattened index and positive window extents,
the embedded decomposition (C truncated `%` and `/`, last axis first,
no modulo on axis 0) agrees with the claim's mixed-radix floor
description, and the flattened index 4 of a 3×3 window with offsets
(1, 1) decomposes to `(0, 0)`. -/
theorem C8_decompose_properties :
    (∀ (i : Int) (ysize offset : List Int), 0 ≤ i → (∀ y ∈ ysize, 0 < y) →
      decompose i ysize offset = decomposeSpec i ysize offset) ∧
    decompose 4 [3, 3] [1, 1] = [0, 0] :=
  ⟨decompose_eq_spec, by decide⟩

/-- Witness for C8 at flattened index 4 over a 3×3 window. -/
theorem C8_decompose_properties_witness :
    (0:Int) ≤ 4 ∧ decompose 4 [3, 3] [1, 1] = decomposeSpec 4 [3, 3] [1, 1] :=
  ⟨by norm_num, C8_decompose_properties.1 4 [3, 3] [1, 1] (by norm_num) (by decide)⟩

/-- C9 (amended).  For a positive window width, `_check_origin` accepts
the origin (returning it unchanged) exactly when
`width // 2 + origin ∈ [0, width)`, i.e. when
`origin ∈ [-(width // 2), width - width // 2)`, and raises
`ValueError('invalid origin')` otherwise.  (For odd widths this upper
bound is `width // 2 + 1`, not the claimed `width // 2`.) -/
theorem C9_origin_check (origin width : Int) (hw : 0 < width) :
    (_check_origin origin width = Except.ok origin ↔
      -(width / 2) ≤ origin ∧ origin < width - width / 2) ∧
    (¬(-(width / 2) ≤ origin ∧ origin < width - width / 2) →
      _check_origin origin width = Except.error "invalid origin") := by
  unfold _check_origin
  split_ifs with h
  · constructor
    · constructor
      · intro he
        cases he
      · intro hc
        exact absurd hc (by omega)
    · intro _
      rfl
  · constructor
    · constructor
      · intro _
        omega
      · intro _
        rfl
    · intro hc
      exfalso
      exact hc ⟨by omega, by omega⟩

/-- Witness for C9 at `origin = 0`, `width = 3`. -/
theorem C9_origin_check_witness :
    (0:Int) < 3 ∧
    (_check_origin 0 3 = Except.ok 0 ↔
      -((3:Int) / 2) ≤ 0 ∧ (0:Int) < 3 - 3 / 2) :=
  ⟨by norm_num, (C9_origin_check 0 3 (by norm_num)).1⟩

/-- C9 counterexample to the claim as stated: with `width = 3` the code
accepts `origin = 1` (since `3 // 2 + 1 = 2 ∈ [0, 3)`), although `1`
does not lie in `[-(3 // 2), 3 // 2) = [-1, 1)`. -/
theorem C9_counterexample :
    _check_origin 1 3 = Except.ok 1 ∧
    ¬(-((3:Int) / 2) ≤ 1 ∧ (1:Int) < (3:Int) / 2) :=
  ⟨rfl, by decide⟩

/-- C10 (amended).  `_check_axes` behaves as the claim states for the
`None` case (all axes) and for iterable inputs: an element outside
`[-ndim, ndim)` raises the axis-range error; otherwise negative
elements are normalized by adding `ndim`, the normalized list lies in
`[0, ndim)`, and a duplicate after normalization raises the uniqueness
error.  A scalar input, however, is only wrapped into a singleton —
with no range check and no normalization. -/
theorem C10_axes_check :
    (∀ n : Int, 0 < n →
      _check_axes AxesArg.null n = Except.ok ((List.range n.toNat).map Int.ofNat)) ∧
    (∀ a n : Int, _check_axes (AxesArg.scalar a) n = Except.ok [a]) ∧
    (∀ (l : List Int) (n : Int), (∃ ax ∈ l, ax < -n ∨ ax > n - 1) →
      _check_axes (AxesArg.iterable l) n = Except.error "specified axis is out of range") ∧
    (∀ (l : List Int) (n : Int), 0 < n → (∀ ax ∈ l, -n ≤ ax ∧ ax ≤ n - 1) →
      (∀ ax ∈ l.map (fun ax => if ax < 0 then ax + n else ax), 0 ≤ ax ∧ ax < n) ∧
      _check_axes (AxesArg.iterable l) n =
        (if (l.map (fun ax => if ax < 0 then ax + n else ax)).Nodup then
          Except.ok (l.map fun ax => if ax < 0 then ax + n else ax)
        else Except.error "axes must be unique")) := by
  refine ⟨fun n _ => ?_, fun a n => ?_, fun l n hex => ?_, fun l n hn hin => ?_⟩
  · simp only [_check_axes]
    unfold uniqueCheck
    rw [if_pos ((List.nodup_range _).map (fun a b h => Int.ofNat.inj h))]
  · simp only [_check_axes]
    unfold uniqueCheck
    rw [if_pos (List.nodup_singleton a)]
  · obtain ⟨ax, hmem, hout⟩ := hex
    have hc : (l.any fun ax => decide (ax < -n ∨ ax > n - 1)) = true :=
      List.any_eq_true.mpr ⟨ax, hmem, decide_eq_true hout⟩
    simp only [_check_axes]
    rw [if_pos hc]
  · have hmapeq : (l.map fun ax => if ax < 0 then ax % n else ax)
        = l.map fun ax => if ax < 0 then ax + n else ax := by
      apply List.map_congr_left
      intro b hb
      have hbb := hin b hb
      by_cases hneg : b < 0
      · rw [if_pos hneg, if_pos hneg,
          show b % n = (b + n) % n from (Int.add_emod_self).symm,
          Int.emod_eq_of_lt (by omega) (by omega)]
      · rw [if_neg hneg, if_neg hneg]
    constructor
    · intro ax hax
      rw [List.mem_map] at hax
      obtain ⟨b, hb, rfl⟩ := hax
      have hbb := hin b hb
      split <;> omega
    · have hany : ¬(l.any fun ax => decide (ax < -n ∨ ax > n - 1)) = true := by
        intro hany
        rw [List.any_eq_true] at hany
        obtain ⟨ax, hmem, hdec⟩ := hany
        have hp := of_decide_eq_true hdec
        have := hin ax hmem
        omega
      simp only [_check_axes]
      rw [if_neg hany]
      unfold uniqueCheck
      rw [hmapeq]

/-- Witness for C10: the `None` case at `ndim = 3`. -/
theorem C10_axes_check_witness :
    (0:Int) < 3 ∧
    _check_axes AxesArg.null 3 = Except.ok ((List.range (3:Int).toNat).map Int.ofNat) :=
  ⟨by norm_num, C10_axes_check.1 3 (by norm_num)⟩

/-- C10 counterexample to the claim as stated: the scalar axis `-1`
with `ndim = 3` is accepted and returned as `(-1,)` — not normalized to
`(2,)` and not non-negative. -/
theorem C10_counterexample :
    _check_axes (AxesArg.scalar (-1)) 3 = Except.ok [-1] ∧ ¬(0 ≤ (-1 : Int)) :=
  ⟨rfl, by decide⟩
